import Mathlib

/-
  Verification of the ivaostatusbot consolidation core.

  Shallow embedding of the Python sources under src/:
  - models/pilot.py, models/atc.py, models/snapshot.py  (data model)
  - services/flight_classifier.py                        (region classification)
  - services/atc_session_tracker.py                      (session continuity)
  - services/db_service.py                               (partitioned store, SQL aggregation)
  - services/statistics_service.py                       (scan-and-replay statistics)
  - services/chart_service.py                            (chart data extraction)
  - services/data_collector.py                           (ingestion filtering)

  Conventions:
  - timestamps are seconds since an arbitrary UTC epoch (Nat); the minute key
    DATE_FORMAT(ts, %Y-%m-%d %H:%i) is ts / 60; the midnight test
    HOUR(ts) = 0 AND MINUTE(ts) = 0 is (ts / 60) % 1440 = 0;
  - a Python None / SQL NULL user id is modelled as the empty string, matching
    the truthiness tests (if p.user_id, str(user_id or callsign)) in the source;
  - Python dicts keyed by strings are modelled as association lists with
    insert-or-overwrite semantics (dinsert), preserving first-insertion key order;
  - sets of minute keys (defaultdict(set)) are modelled as duplicate-free lists
    maintained by setInsert.
-/

/- ===== Data model (src/models) ===== -/

/-- One flight plan, from models/pilot.py FlightPlan (departure_id, arrival_id,
people_on_board, route, aircraft_icao). -/
structure FlightPlan where
  departure_id : String
  arrival_id : String
  people_on_board : Nat
  route : String
  aircraft_icao : String
deriving DecidableEq, Repr

/-- One pilot record, from models/pilot.py Pilot. A missing user id is the empty string. -/
structure Pilot where
  user_id : String
  callsign : String
  flight_plan : FlightPlan
deriving DecidableEq, Repr

/-- One controller record, from models/atc.py ATC. The frequency and atis fields of the
source are never read by any verified code path and are omitted from the embedding. -/
structure ATC where
  user_id : String
  callsign : String
deriving DecidableEq, Repr

/-- One point-in-time sample, from models/snapshot.py Snapshot. -/
structure Snapshot where
  ts : Nat
  pilots : List Pilot
  atcs : List ATC
deriving DecidableEq, Repr

/- ===== Classifier (src/services/flight_classifier.py) ===== -/

/-- Python str.startswith for a single prefix, as a character-sequence prefix test. -/
def pyStartsWith (pre s : String) : Bool :=
  pre.data.isPrefixOf s.data

/-- Python str.startswith on a tuple of prefixes: true iff some prefix matches
(false for the empty tuple). -/
def startsWithAny (prefixes : List String) (s : String) : Bool :=
  prefixes.any (fun p => pyStartsWith p s)

/-- FlightClassifier.is_domestic: both endpoints start with a configured prefix. -/
def is_domestic (prefixes : List String) (p : Pilot) : Bool :=
  startsWithAny prefixes p.flight_plan.departure_id &&
    startsWithAny prefixes p.flight_plan.arrival_id

/-- FlightClassifier.is_international_departure. -/
def is_international_departure (prefixes : List String) (p : Pilot) : Bool :=
  startsWithAny prefixes p.flight_plan.departure_id &&
    !(startsWithAny prefixes p.flight_plan.arrival_id)

/-- FlightClassifier.is_international_arrival. -/
def is_international_arrival (prefixes : List String) (p : Pilot) : Bool :=
  !(startsWithAny prefixes p.flight_plan.departure_id) &&
    startsWithAny prefixes p.flight_plan.arrival_id

/-- FlightClassifier.involves_country: either endpoint starts with a configured prefix. -/
def involves_country (prefixes : List String) (p : Pilot) : Bool :=
  startsWithAny prefixes p.flight_plan.departure_id ||
    startsWithAny prefixes p.flight_plan.arrival_id

/-- FlightClassifier.is_country_atc: the callsign starts with a configured prefix. -/
def is_country_atc (prefixes : List String) (a : ATC) : Bool :=
  startsWithAny prefixes a.callsign

/-- ASCII uppercase of one character. Callsigns, airport codes and user ids in
this system are ASCII, so this models Python str.upper faithfully on the data
the system handles. -/
def upChar (c : Char) : Char :=
  if 97 ≤ c.toNat ∧ c.toNat ≤ 122 then Char.ofNat (c.toNat - 32) else c

/-- Python str.upper on the ASCII strings this system handles. -/
def pyUpper (s : String) : String :=
  String.mk (s.data.map upChar)

/-- The subject key str(pilot.user_id or pilot.callsign).upper() used throughout
statistics_service.py: callsign fallback when the user id is missing. -/
def pilotVid (p : Pilot) : String :=
  pyUpper (if p.user_id = "" then p.callsign else p.user_id)

/-- The subject key str(atc.user_id or atc.callsign).upper(). -/
def atcVid (a : ATC) : String :=
  pyUpper (if a.user_id = "" then a.callsign else a.user_id)

/- ===== Dict and first-occurrence dedup helpers ===== -/

/-- Python dict assignment d[k] = v as insert-or-overwrite on an association list,
keeping the first-insertion order of keys. -/
def dinsert (k : String) (v : Int) : List (String × Int) → List (String × Int)
  | [] => [(k, v)]
  | kv :: rest => if kv.1 = k then (k, v) :: rest else kv :: dinsert k v rest

/-- First-occurrence deduplication relative to an already-seen list. -/
def fdedupFrom : List String → List String → List String
  | _, [] => []
  | seen, x :: xs => if x ∈ seen then fdedupFrom seen xs else x :: fdedupFrom (x :: seen) xs

/-- First-occurrence deduplication of a list of strings, the key order a Python
dict built by repeated assignment ends up with. -/
def fdedup (l : List String) : List String :=
  fdedupFrom [] l

theorem mem_fdedupFrom (x : String) (seen l : List String) :
    x ∈ fdedupFrom seen l ↔ x ∈ l ∧ x ∉ seen := by
  induction l generalizing seen with
  | nil => simp [fdedupFrom]
  | cons y ys ih =>
    by_cases hy : y ∈ seen <;> by_cases hxy : x = y
    · subst hxy
      simp only [fdedupFrom, if_pos hy, ih, List.mem_cons]
      tauto
    · simp only [fdedupFrom, if_pos hy, ih, List.mem_cons]
      tauto
    · subst hxy
      simp only [fdedupFrom, if_neg hy, ih, List.mem_cons]
      tauto
    · simp only [fdedupFrom, if_neg hy, ih, List.mem_cons]
      tauto

theorem fdedupFrom_congr (s t l : List String) (h : ∀ y, y ∈ s ↔ y ∈ t) :
    fdedupFrom s l = fdedupFrom t l := by
  induction l generalizing s t with
  | nil => rfl
  | cons x xs ih =>
    simp only [fdedupFrom]
    by_cases hx : x ∈ s
    · rw [if_pos hx, if_pos ((h x).mp hx), ih s t h]
    · rw [if_neg hx, if_neg (fun hc => hx ((h x).mpr hc))]
      congr 1
      refine ih _ _ (fun y => ?_)
      simp only [List.mem_cons, h y]

theorem nodup_fdedupFrom (seen l : List String) : (fdedupFrom seen l).Nodup := by
  induction l generalizing seen with
  | nil => exact List.nodup_nil
  | cons x xs ih =>
    simp only [fdedupFrom]
    by_cases hx : x ∈ seen
    · rw [if_pos hx]; exact ih seen
    · rw [if_neg hx]
      refine List.Nodup.cons (fun hc => ?_) (ih (x :: seen))
      exact ((mem_fdedupFrom x (x :: seen) xs).mp hc).2 (List.mem_cons_self x seen)

theorem keys_dinsert (k : String) (v : Int) (m : List (String × Int)) :
    (dinsert k v m).map Prod.fst
      = if k ∈ m.map Prod.fst then m.map Prod.fst else m.map Prod.fst ++ [k] := by
  induction m with
  | nil => simp [dinsert]
  | cons kv rest ih =>
    by_cases hk : kv.1 = k
    · simp [dinsert, hk]
    · simp only [dinsert, if_neg hk, List.map_cons, List.mem_cons]
      rw [ih]
      by_cases hmem : k ∈ rest.map Prod.fst
      · rw [if_pos hmem, if_pos (Or.inr hmem)]
      · rw [if_neg hmem, if_neg (by rintro (h | h); exact hk h.symm; exact hmem h)]
        simp

theorem dinsert_same_value (f : String → Int) (k : String) (m : List (String × Int))
    (hv : ∀ kv ∈ m, kv.2 = f kv.1) (hk : k ∈ m.map Prod.fst) :
    dinsert k (f k) m = m := by
  induction m with
  | nil => simp at hk
  | cons kv rest ih =>
    simp only [List.map_cons, List.mem_cons] at hk
    by_cases h1 : kv.1 = k
    · simp only [dinsert, if_pos h1]
      have h2 : kv.2 = f kv.1 := hv kv (List.mem_cons_self kv rest)
      subst h1
      rw [← h2, Prod.mk.eta]
    · simp only [dinsert, if_neg h1]
      have hk2 : k ∈ rest.map Prod.fst := by
        rcases hk with h | h
        · exact absurd h.symm h1
        · exact h
      rw [ih (fun kv hkv => hv kv (List.mem_cons_of_mem _ hkv)) hk2]

theorem dinsert_new_key (k : String) (v : Int) (m : List (String × Int))
    (hk : k ∉ m.map Prod.fst) :
    dinsert k v m = m ++ [(k, v)] := by
  induction m with
  | nil => rfl
  | cons kv rest ih =>
    simp only [List.map_cons, List.mem_cons, not_or] at hk
    simp only [dinsert]
    rw [if_neg (show ¬ kv.1 = k from fun h => hk.1 h.symm), ih hk.2]
    simp

/-- Characterization of a dict-comprehension fold where the stored value is a pure
function of the key: the result is the first-occurrence dedup of the key list, each
key paired with its value. -/
theorem foldl_dinsert_eq (f : String → Int) (ts : List String) (m : List (String × Int))
    (hv : ∀ kv ∈ m, kv.2 = f kv.1) :
    ts.foldl (fun acc cs => dinsert cs (f cs) acc) m
      = m ++ (fdedupFrom (m.map Prod.fst) ts).map (fun cs => (cs, f cs)) := by
  induction ts generalizing m with
  | nil => simp [fdedupFrom]
  | cons x xs ih =>
    simp only [List.foldl_cons, fdedupFrom]
    by_cases hx : x ∈ m.map Prod.fst
    · rw [dinsert_same_value f x m hv hx, if_pos hx, ih m hv]
    · rw [if_neg hx, dinsert_new_key x (f x) m hx]
      have hv2 : ∀ kv ∈ m ++ [(x, f x)], kv.2 = f kv.1 := by
        intro kv hkv
        rcases List.mem_append.mp hkv with h | h
        · exact hv kv h
        · simp only [List.mem_singleton] at h
          rw [h]
      rw [ih (m ++ [(x, f x)]) hv2]
      have hkeys : (m ++ [(x, f x)]).map Prod.fst = m.map Prod.fst ++ [x] := by
        simp
      rw [hkeys]
      have hcongr : fdedupFrom (m.map Prod.fst ++ [x]) xs = fdedupFrom (x :: m.map Prod.fst) xs := by
        refine fdedupFrom_congr _ _ _ (fun y => ?_)
        simp only [List.mem_append, List.mem_singleton, List.mem_cons]
        tauto
      rw [hcongr]
      simp

/- ===== Session continuity tracker (src/services/atc_session_tracker.py) ===== -/

/-- One joined row of the tracker query: snapshots_day timestamp and id for a
callsign occurrence, services/atc_session_tracker.py lines 43-70. -/
structure HistEntry where
  ts : Nat
  sid : Int
deriving DecidableEq, Repr

/-- The backward continuity walk of calculate_session_duration lines 81-98:
starting from the newest entry, keep stepping to the next-older entry while the
snapshot-id difference is not greater than 1; the first gap ends the walk. -/
def find_session_start (e : HistEntry) : List HistEntry → HistEntry
  | [] => e
  | p :: rest => if e.sid - p.sid > 1 then e else find_session_start p rest

/-- Number of backward steps the walk takes, computed from the snapshot ids alone. -/
def start_id_steps : Int → List Int → Nat
  | _, [] => 0
  | a, b :: t => if a - b > 1 then 0 else start_id_steps b t + 1

/-- The outcome of the underlying store for one tracker call: no pooled connection,
an exception raised during the query, or the joined rows (callsign, timestamp,
snapshot id) the query returned, ordered by callsign then timestamp descending. -/
inductive StoreStatus where
  | noConn : StoreStatus
  | raisedError : StoreStatus
  | ok : List (String × HistEntry) → StoreStatus
deriving DecidableEq, Repr

/-- Grouping of the query rows by uppercased callsign (lines 58-70): the history of
one callsign is the sub-sequence of rows carrying it, in row order (newest first). -/
def history_for (rows : List (String × HistEntry)) (cs : String) : List HistEntry :=
  (rows.filter (fun r => pyUpper r.1 = cs)).map Prod.snd

/-- Session duration for one callsign (lines 75-101): 0 if the callsign has no
history, otherwise minutes from the reconstructed start to now, truncated toward
zero as Python int() does, plus one. -/
def session_minutes (now : Nat) : List HistEntry → Int
  | [] => 0
  | e :: rest => (((now : Int) - ((find_session_start e rest).ts : Int)).tdiv 60) + 1

/-- The uppercased non-empty callsigns the tracker targets (line 28). -/
def target_list (current_atcs : List ATC) : List String :=
  (current_atcs.filter (fun a => a.callsign ≠ "")).map (fun a => pyUpper a.callsign)

/-- ATCSessionTracker.calculate_session_duration: the three store outcomes of the
source (lines 33-35, 75-101, 103-105); the result is the Python dict as an
association list. -/
def calculate_session_duration (current_atcs : List ATC) (store : StoreStatus)
    (now : Nat) : List (String × Int) :=
  if current_atcs = [] then []
  else if target_list current_atcs = [] then []
  else
    match store with
    | StoreStatus.noConn => (target_list current_atcs).foldl (fun m cs => dinsert cs 0 m) []
    | StoreStatus.raisedError =>
        (target_list current_atcs).foldl (fun m cs => dinsert cs 0 m) []
    | StoreStatus.ok rows => (target_list current_atcs).foldl
        (fun m cs => dinsert cs (session_minutes now (history_for rows cs)) m) []

/-- The value the tracker associates with one target callsign under each store outcome. -/
def store_value (store : StoreStatus) (now : Nat) (cs : String) : Int :=
  match store with
  | StoreStatus.noConn => 0
  | StoreStatus.raisedError => 0
  | StoreStatus.ok rows => session_minutes now (history_for rows cs)

/-- Closed form of the tracker result: the first-occurrence dedup of the targets,
each paired with its per-callsign value. -/
theorem csd_eq (atcs : List ATC) (store : StoreStatus) (now : Nat) :
    calculate_session_duration atcs store now
      = (fdedup (target_list atcs)).map (fun cs => (cs, store_value store now cs)) := by
  by_cases h0 : atcs = []
  · subst h0
    cases store <;> rfl
  · simp only [calculate_session_duration, if_neg h0]
    by_cases h1 : target_list atcs = []
    · rw [if_pos h1, h1]
      rfl
    · rw [if_neg h1]
      cases store with
      | noConn =>
        have h := foldl_dinsert_eq (fun _ => 0) (target_list atcs) []
          (by intro kv hkv; cases hkv)
        simpa [fdedup, store_value] using h
      | raisedError =>
        have h := foldl_dinsert_eq (fun _ => 0) (target_list atcs) []
          (by intro kv hkv; cases hkv)
        simpa [fdedup, store_value] using h
      | ok rows =>
        have h := foldl_dinsert_eq (fun cs => session_minutes now (history_for rows cs))
          (target_list atcs) [] (by intro kv hkv; cases hkv)
        simpa [fdedup, store_value] using h

theorem lookup_map_const (x : String) (xs : List String) (v : Int) (hx : x ∈ xs) :
    (xs.map (fun c => (c, v))).lookup x = some v := by
  induction xs with
  | nil => cases hx
  | cons c cs ih =>
    rcases List.mem_cons.mp hx with rfl | hmem
    · simp [List.lookup]
    · by_cases hxc : x = c
      · subst hxc; simp [List.lookup]
      · have hbeq : (x == c) = false := by
          simpa using hxc
        simp only [List.map_cons, List.lookup, hbeq]
        exact ih hmem

theorem start_id_steps_le (a : Int) (l : List Int) : start_id_steps a l ≤ l.length := by
  induction l generalizing a with
  | nil => exact Nat.le_refl 0
  | cons b t ih =>
    simp only [start_id_steps, List.length_cons]
    by_cases hgap : a - b > 1
    · rw [if_pos hgap]
      exact Nat.zero_le _
    · rw [if_neg hgap]
      exact Nat.succ_le_succ (ih b)

theorem getD_default_irrel {α : Type} (l : List α) (n : Nat) (d1 d2 : α)
    (hn : n < l.length) : l.getD n d1 = l.getD n d2 := by
  induction l generalizing n with
  | nil => cases hn
  | cons x xs ih =>
    cases n with
    | zero => rfl
    | succ m =>
      simp only [List.getD_cons_succ]
      exact ih m (Nat.lt_of_succ_lt_succ hn)

/-- The entry the backward walk selects is the one at the index computed from the
snapshot ids alone; the timestamps carried by the entries play no part in where
the walk stops. -/
theorem find_session_start_eq_getD (e : HistEntry) (rest : List HistEntry) :
    find_session_start e rest
      = (e :: rest).getD (start_id_steps e.sid (rest.map HistEntry.sid)) e := by
  induction rest generalizing e with
  | nil => rfl
  | cons p t ih =>
    simp only [find_session_start, List.map_cons, start_id_steps]
    by_cases hgap : e.sid - p.sid > 1
    · rw [if_pos hgap, if_pos hgap]
      rfl
    · rw [if_neg hgap, if_neg hgap]
      rw [ih p]
      have hlt : start_id_steps p.sid (t.map HistEntry.sid) < (p :: t).length := by
        have h := start_id_steps_le p.sid (t.map HistEntry.sid)
        simp only [List.length_map] at h
        simp only [List.length_cons]
        omega
      calc (p :: t).getD (start_id_steps p.sid (t.map HistEntry.sid)) p
          = (p :: t).getD (start_id_steps p.sid (t.map HistEntry.sid)) e :=
            getD_default_irrel _ _ p e hlt
        _ = (e :: p :: t).getD (start_id_steps p.sid (t.map HistEntry.sid) + 1) e := by
            rw [List.getD_cons_succ]

/-- Under strictly decreasing ids (newest first, distinct snapshot rows), every
step the walk takes has an id difference of exactly 1, and when the walk ends
before the list does, the id difference at the stopping point exceeds 1. -/
theorem start_id_steps_spec (a : Int) (l : List Int)
    (hdec : List.Chain' (fun x y => x > y) (a :: l)) :
    (∀ i, i < start_id_steps a l →
        (a :: l).getD i 0 - (a :: l).getD (i + 1) 0 = 1)
  ∧ (start_id_steps a l < l.length →
        (a :: l).getD (start_id_steps a l) 0
          - (a :: l).getD (start_id_steps a l + 1) 0 > 1) := by
  induction l generalizing a with
  | nil =>
    constructor
    · intro i hi
      cases hi
    · intro h
      cases h
  | cons b t ih =>
    rcases List.chain'_cons.mp hdec with ⟨hab, hchain⟩
    simp only [start_id_steps]
    by_cases hgap : a - b > 1
    · rw [if_pos hgap]
      constructor
      · intro i hi
        cases hi
      · intro _
        simpa using hgap
    · rw [if_neg hgap]
      have hone : a - b = 1 := by omega
      have ihb := ih b hchain
      constructor
      · intro i hi
        cases i with
        | zero => simpa using hone
        | succ j =>
          simp only [List.getD_cons_succ]
          exact ihb.1 j (Nat.lt_of_succ_lt_succ hi)
      · intro hlen
        simp only [List.length_cons] at hlen
        simp only [List.getD_cons_succ]
        exact ihb.2 (Nat.lt_of_succ_lt_succ hlen)

/-- Claim C1: for controller history rows ordered newest-first, the reconstructed
session start is the earliest entry reachable from the newest by steps whose
snapshot ids differ by exactly 1; the first adjacent id difference above 1 ends
the backward walk, and timestamp gaps between consecutive ids never end it
(the stopping index is a function of the ids alone). In particular, for ids
[101,102,103,105,106] (newest 106) the start is the entry with id 105, and for
ids [101,102,103] the session start is the oldest entry even when the
timestamps span a 10-hour collector outage (36000 seconds between 102 and 103). -/
theorem session_start_continuity_walk :
    (∀ (e : HistEntry) (rest : List HistEntry),
        find_session_start e rest
          = (e :: rest).getD (start_id_steps e.sid (rest.map HistEntry.sid)) e)
  ∧ (∀ (a : Int) (l : List Int), List.Chain' (fun x y => x > y) (a :: l) →
        (∀ i, i < start_id_steps a l →
            (a :: l).getD i 0 - (a :: l).getD (i + 1) 0 = 1)
      ∧ (start_id_steps a l < l.length →
            (a :: l).getD (start_id_steps a l) 0
              - (a :: l).getD (start_id_steps a l + 1) 0 > 1))
  ∧ find_session_start ⟨600, 106⟩ [⟨540, 105⟩, ⟨380, 103⟩, ⟨320, 102⟩, ⟨260, 101⟩]
      = ⟨540, 105⟩
  ∧ find_session_start ⟨50000, 103⟩ [⟨14000, 102⟩, ⟨13940, 101⟩] = ⟨13940, 101⟩ :=
  ⟨find_session_start_eq_getD, start_id_steps_spec, rfl, rfl⟩

/-- Witness for session_start_continuity_walk at the concrete id list
[106,105,103,102,101]: the walk stops after exactly one step, where the id
difference is greater than 1. -/
theorem session_start_continuity_walk_witness :
    List.Chain' (fun x y => x > y) ((106 : Int) :: [105, 103, 102, 101])
  ∧ ((106 : Int) :: [105, 103, 102, 101]).getD
        (start_id_steps 106 [105, 103, 102, 101]) 0
      - ((106 : Int) :: [105, 103, 102, 101]).getD
        (start_id_steps 106 [105, 103, 102, 101] + 1) 0 > 1 :=
  ⟨by
      simp only [List.chain'_cons, List.chain'_singleton, and_true]
      omega,
    (session_start_continuity_walk.2.1 106 [105, 103, 102, 101]
      (by
        simp only [List.chain'_cons, List.chain'_singleton, and_true]
        omega)).2 (by decide)⟩

/-- Claim C7: when the underlying store is unreachable (no pooled connection, or
the query raises), the tracker returns the dictionary mapping every requested
callsign to duration 0, for every input; totality of the embedding models the
absence of an escaping exception. -/
theorem tracker_unreachable_zero (atcs : List ATC) (now : Nat) :
    (calculate_session_duration atcs StoreStatus.noConn now
        = (fdedup (target_list atcs)).map (fun cs => (cs, (0 : Int))))
  ∧ (calculate_session_duration atcs StoreStatus.raisedError now
        = (fdedup (target_list atcs)).map (fun cs => (cs, (0 : Int))))
  ∧ (∀ cs ∈ target_list atcs,
        (calculate_session_duration atcs StoreStatus.noConn now).lookup cs = some 0
      ∧ (calculate_session_duration atcs StoreStatus.raisedError now).lookup cs = some 0) := by
  refine ⟨csd_eq atcs StoreStatus.noConn now, csd_eq atcs StoreStatus.raisedError now, ?_⟩
  intro cs hcs
  have hmem : cs ∈ fdedup (target_list atcs) := by
    rw [fdedup, mem_fdedupFrom]
    exact ⟨hcs, fun h => absurd h (List.not_mem_nil cs)⟩
  constructor
  · rw [csd_eq]
    exact lookup_map_const cs _ 0 hmem
  · rw [csd_eq]
    exact lookup_map_const cs _ 0 hmem

/-- Witness for tracker_unreachable_zero: a single requested callsign maps to 0 when
there is no connection. -/
theorem tracker_unreachable_zero_witness :
    (calculate_session_duration [⟨"1", "SCEL_TWR"⟩] StoreStatus.noConn 0).lookup "SCEL_TWR"
      = some 0 :=
  ((tracker_unreachable_zero [⟨"1", "SCEL_TWR"⟩] 0).2.2 "SCEL_TWR" (by decide)).1

/-- Claim C10: in the normal path, the no-connection path and the exception path
alike, the tracker result has exactly one entry per distinct non-empty input
callsign, keyed by the uppercased callsign, and no other entries; an empty
input, or one whose callsigns are all empty, yields an empty map. -/
theorem tracker_result_keys (atcs : List ATC) (store : StoreStatus) (now : Nat) :
    ((calculate_session_duration atcs store now).map Prod.fst = fdedup (target_list atcs))
  ∧ ((calculate_session_duration atcs store now).map Prod.fst).Nodup
  ∧ (∀ cs, cs ∈ (calculate_session_duration atcs store now).map Prod.fst
        ↔ cs ∈ target_list atcs)
  ∧ (calculate_session_duration [] store now = [])
  ∧ (calculate_session_duration [⟨"123", ""⟩] store now = []) := by
  have hkeys : (calculate_session_duration atcs store now).map Prod.fst
      = fdedup (target_list atcs) := by
    rw [csd_eq, List.map_map]
    simp [Function.comp_def]
  refine ⟨hkeys, ?_, ?_, ?_, ?_⟩
  · rw [hkeys]
    exact nodup_fdedupFrom [] (target_list atcs)
  · intro cs
    rw [hkeys, fdedup, mem_fdedupFrom]
    constructor
    · exact fun h => h.1
    · exact fun h => ⟨h, fun hc => absurd hc (List.not_mem_nil cs)⟩
  · cases store <;> rfl
  · cases store <;> rfl

/- ===== Snapshot store (src/services/db_service.py save_snapshot) ===== -/

/-- The three table partitions of the store, each an append-only list of samples. -/
structure PartitionDB where
  day : List Snapshot
  week : List Snapshot
  month : List Snapshot
deriving DecidableEq, Repr

/-- Whether the per-partition INSERT block (lines 76-133) succeeds or raises for
each of the three partitions in this store call; the per-partition try/except of
the source catches the exception and marks overall failure. -/
structure WriteOutcome where
  day_ok : Bool
  week_ok : Bool
  month_ok : Bool
deriving DecidableEq, Repr

/-- One iteration of the partition loop of save_snapshot: on success the sample is
appended, on a caught exception the partition is left alone and success_all is
cleared. -/
def save_partition (ok : Bool) (snap : Snapshot) (part : List Snapshot)
    (success_all : Bool) : List Snapshot × Bool :=
  if ok then (part ++ [snap], success_all) else (part, false)

/-- DatabaseService.save_snapshot (lines 60-151): with no pooled connection the
call returns False having written nothing; otherwise the loop visits the day,
week and month partitions in order, accumulating success_all, and the final
commit (assumed to succeed) makes every successful partition write durable. -/
def save_snapshot (conn_ok : Bool) (w : WriteOutcome) (snap : Snapshot)
    (db : PartitionDB) : PartitionDB × Bool :=
  if conn_ok then
    let r1 := save_partition w.day_ok snap db.day true
    let r2 := save_partition w.week_ok snap db.week r1.2
    let r3 := save_partition w.month_ok snap db.month r2.2
    (⟨r1.1, r2.1, r3.1⟩, r3.2)
  else (db, false)

/-- Claim C6: the store call attempts all three partition writes even when one
fails; it reports success iff every partition write succeeded; and in the
concrete scenario where the week (medium) write throws while day and month
succeed, the call reports failure yet the day and month partitions contain the
sample and the week partition is unchanged. -/
theorem store_per_partition_writes (w : WriteOutcome) (snap : Snapshot) (db : PartitionDB) :
    ((save_snapshot true w snap db).2 = (w.day_ok && w.week_ok && w.month_ok))
  ∧ ((save_snapshot true w snap db).1.day
        = if w.day_ok then db.day ++ [snap] else db.day)
  ∧ ((save_snapshot true w snap db).1.week
        = if w.week_ok then db.week ++ [snap] else db.week)
  ∧ ((save_snapshot true w snap db).1.month
        = if w.month_ok then db.month ++ [snap] else db.month)
  ∧ (save_snapshot false w snap db = (db, false))
  ∧ ((save_snapshot true ⟨true, false, true⟩ snap db).2 = false)
  ∧ (snap ∈ (save_snapshot true ⟨true, false, true⟩ snap db).1.day)
  ∧ (snap ∈ (save_snapshot true ⟨true, false, true⟩ snap db).1.month)
  ∧ ((save_snapshot true ⟨true, false, true⟩ snap db).1.week = db.week) := by
  rcases w with ⟨d, wk, m⟩
  cases d <;> cases wk <;> cases m <;>
    simp [save_snapshot, save_partition]

/- ===== Chart data extraction (src/services/chart_service.py _read_chart_data) ===== -/

/-- One row of DatabaseService.get_chart_time_series: a snapshot timestamp with
its pilot and controller counts. -/
structure ChartRow where
  ts : Nat
  pilot_count : Nat
  atc_count : Nat
deriving DecidableEq, Repr

/-- The strftime %H:%M label of a timestamp, as the minute of the UTC day. -/
def hhmm (ts : Nat) : Nat :=
  (ts / 60) % 1440

/-- ChartService._read_chart_data, daily/realtime branch (lines 125-160): when
the window holds no rows, a flat two-point series is synthesized from the last
known snapshot counts, or an all-zero two-point series when no snapshot exists
(the 00:00 literal of the source is label 0); otherwise the rows are sorted by
timestamp and mapped to (label, pilot count, controller count) series. -/
def read_chart_data_short (rows : List ChartRow) (last_snapshot : Option Snapshot)
    (start_hm now_hm : Nat) : List Nat × List Nat × List Nat :=
  match rows with
  | [] =>
    match last_snapshot with
    | some snap =>
        ([start_hm, now_hm], [snap.pilots.length, snap.pilots.length],
          [snap.atcs.length, snap.atcs.length])
    | none => ([0, now_hm], [0, 0], [0, 0])
  | _ :: _ =>
    let sorted := List.insertionSort (fun a b => a.ts ≤ b.ts) rows
    (sorted.map (fun r => hhmm r.ts), sorted.map (fun r => r.pilot_count),
      sorted.map (fun r => r.atc_count))

/-- Claim C8: an empty live/short window yields a flat two-point series built
from the last known snapshot counts (five pilots and two controllers yield
[5,5] and [2,2]), an all-zero two-point series when no snapshot exists, and the
returned label series is never empty. -/
theorem chart_empty_window_fallback (rows : List ChartRow)
    (last_snapshot : Option Snapshot) (start_hm now_hm : Nat) (snap : Snapshot) :
    (read_chart_data_short [] (some snap) start_hm now_hm
        = ([start_hm, now_hm], [snap.pilots.length, snap.pilots.length],
            [snap.atcs.length, snap.atcs.length]))
  ∧ (read_chart_data_short [] none start_hm now_hm = ([0, now_hm], [0, 0], [0, 0]))
  ∧ ((read_chart_data_short rows last_snapshot start_hm now_hm).1.length
        = if rows = [] then 2 else rows.length)
  ∧ (0 < (read_chart_data_short rows last_snapshot start_hm now_hm).1.length)
  ∧ (read_chart_data_short []
        (some ⟨0, List.replicate 5 ⟨"1", "X", ⟨"", "", 0, "", ""⟩⟩,
              List.replicate 2 ⟨"2", "Y"⟩⟩) start_hm now_hm
        = ([start_hm, now_hm], [5, 5], [2, 2])) := by
  refine ⟨rfl, rfl, ?_, ?_, rfl⟩
  · cases rows with
    | nil => cases last_snapshot <;> rfl
    | cons r rs =>
      simp only [read_chart_data_short, List.length_map, List.length_insertionSort,
        if_neg (List.cons_ne_nil r rs)]
  · cases rows with
    | nil => cases last_snapshot <;> simp [read_chart_data_short]
    | cons r rs =>
      simp only [read_chart_data_short, List.length_map, List.length_insertionSort,
        List.length_cons]
      exact Nat.succ_pos rs.length

/- ===== Ingestion filtering (src/services/data_collector.py, models/atc.py) ===== -/

/-- One raw controller entry of the upstream payload, restricted to the fields
ATC.from_api_data reads for identity (callsign and userId); frequency and atis
do not influence whether a record is stored. -/
structure RawATC where
  userId : String
  callsign : String
deriving DecidableEq, Repr

/-- ATC.from_api_data (models/atc.py lines 19-26): the uppercased callsign; a
record whose callsign is empty parses to None and is dropped by the caller. -/
def atc_from_api_data (d : RawATC) : Option ATC :=
  if pyUpper d.callsign = "" then none
  else some ⟨d.userId, pyUpper d.callsign⟩

/-- DataCollector.collect_and_save, filtering stage (lines 36-50): parse the raw
controllers, drop the None parses, then keep only records that involve the
configured region and carry a user id. Pilots arrive already parsed. -/
def collect_country_records (prefixes : List String) (all_pilots : List Pilot)
    (raw_atcs : List RawATC) : List Pilot × List ATC :=
  let all_atcs := raw_atcs.filterMap atc_from_api_data
  (all_pilots.filter (fun p => involves_country prefixes p && !(p.user_id == "")),
    all_atcs.filter (fun a => is_country_atc prefixes a && !(a.user_id == "")))

/-- Claim C9: ingestion drops malformed records before storage: every stored
controller has a non-empty region-matching callsign, every stored pilot involves
the region; prepending a controller with an empty callsign, a pilot that does
not involve the region, or a controller whose callsign matches no prefix leaves
the stored records unchanged (dropped, never stored, and, the embedding being
total, never an error). -/
theorem ingest_drops_malformed (prefixes : List String) (all_pilots : List Pilot)
    (raw_atcs : List RawATC) :
    (∀ a ∈ (collect_country_records prefixes all_pilots raw_atcs).2,
        a.callsign ≠ "" ∧ is_country_atc prefixes a = true)
  ∧ (∀ p ∈ (collect_country_records prefixes all_pilots raw_atcs).1,
        involves_country prefixes p = true)
  ∧ (∀ d : RawATC, pyUpper d.callsign = "" →
        collect_country_records prefixes all_pilots (d :: raw_atcs)
          = collect_country_records prefixes all_pilots raw_atcs)
  ∧ (∀ p : Pilot, involves_country prefixes p = false →
        collect_country_records prefixes (p :: all_pilots) raw_atcs
          = collect_country_records prefixes all_pilots raw_atcs)
  ∧ (∀ d : RawATC, startsWithAny prefixes (pyUpper d.callsign) = false →
        collect_country_records prefixes all_pilots (d :: raw_atcs)
          = collect_country_records prefixes all_pilots raw_atcs) := by
  refine ⟨?_, ?_, ?_, ?_, ?_⟩
  · intro a ha
    simp only [collect_country_records, List.mem_filter] at ha
    rcases ha with ⟨hmem, hpred⟩
    rcases List.mem_filterMap.mp hmem with ⟨d, _, hparse⟩
    have hcs : a.callsign = pyUpper d.callsign ∧ pyUpper d.callsign ≠ "" := by
      by_cases hempty : pyUpper d.callsign = ""
      · rw [atc_from_api_data, if_pos hempty] at hparse
        cases hparse
      · rw [atc_from_api_data, if_neg hempty] at hparse
        cases hparse
        exact ⟨rfl, hempty⟩
    simp only [Bool.and_eq_true] at hpred
    exact ⟨hcs.1 ▸ hcs.2, hpred.1⟩
  · intro p hp
    simp only [collect_country_records, List.mem_filter, Bool.and_eq_true] at hp
    exact hp.2.1
  · intro d hempty
    simp only [collect_country_records, List.filterMap_cons]
    rw [atc_from_api_data, if_pos hempty]
  · intro p hout
    simp only [collect_country_records, List.filter_cons, hout, Bool.false_and]
    rfl
  · intro d hnomatch
    by_cases hempty : pyUpper d.callsign = ""
    · simp only [collect_country_records, List.filterMap_cons]
      rw [atc_from_api_data, if_pos hempty]
    · simp only [collect_country_records, List.filterMap_cons]
      rw [atc_from_api_data, if_neg hempty]
      simp only [List.filter_cons]
      have : is_country_atc prefixes ⟨d.userId, pyUpper d.callsign⟩ = false := hnomatch
      rw [this]
      rfl

/-- Witness for ingest_drops_malformed: a controller with an empty callsign and a
pilot touching no region endpoint are both dropped from a concrete ingest. -/
theorem ingest_drops_malformed_witness :
    (collect_country_records ["SC"] [] [⟨"9", ""⟩] = collect_country_records ["SC"] [] [])
  ∧ (collect_country_records ["SC"] [⟨"7", "AAA", ⟨"EGLL", "LFPG", 1, "", ""⟩⟩] []
        = collect_country_records ["SC"] [] []) :=
  ⟨(ingest_drops_malformed ["SC"] [] []).2.2.1 ⟨"9", ""⟩ rfl,
    (ingest_drops_malformed ["SC"] [] []).2.2.2.1 ⟨"7", "AAA", ⟨"EGLL", "LFPG", 1, "", ""⟩⟩
      (by decide)⟩

/- ===== Person-minute accounting machinery =====
   defaultdict(set) of minute keys per subject, as built by
   statistics_service.py calculate_realtime_stats / calculate_historical_stats. -/

/-- Python set.add on a set of minute keys. -/
def setInsert (m : Nat) (s : List Nat) : List Nat :=
  if m ∈ s then s else m :: s

/-- pilot_minutes[uid].add(minute_key) on the defaultdict(set): update the entry
of key k with the minute m, creating the entry if absent. -/
def bump (k : String) (m : Nat) : List (String × List Nat) → List (String × List Nat)
  | [] => [(k, [m])]
  | kv :: rest => if kv.1 = k then (kv.1, setInsert m kv.2) :: rest else kv :: bump k m rest

/-- sum(len(minutes) for minutes in d.values()). -/
def sumLens (acc : List (String × List Nat)) : Nat :=
  (acc.map (fun kv => kv.2.length)).sum

/-- All (subject, minute) pairs represented by a defaultdict(set) state. -/
def pairsOf (acc : List (String × List Nat)) : List (String × Nat) :=
  acc.flatMap (fun kv => kv.2.map (fun m => (kv.1, m)))

/-- Well-formedness of a defaultdict(set) state: distinct keys, duplicate-free sets. -/
def accWF (acc : List (String × List Nat)) : Prop :=
  (acc.map Prod.fst).Nodup ∧ ∀ kv ∈ acc, kv.2.Nodup

theorem keys_bump (k : String) (m : Nat) (acc : List (String × List Nat)) :
    (bump k m acc).map Prod.fst
      = if k ∈ acc.map Prod.fst then acc.map Prod.fst else acc.map Prod.fst ++ [k] := by
  induction acc with
  | nil => simp [bump]
  | cons kv rest ih =>
    by_cases hk : kv.1 = k
    · simp [bump, hk]
    · simp only [bump, if_neg hk, List.map_cons, List.mem_cons]
      rw [ih]
      by_cases hmem : k ∈ rest.map Prod.fst
      · rw [if_pos hmem, if_pos (Or.inr hmem)]
      · rw [if_neg hmem, if_neg (by rintro (h | h); exact hk h.symm; exact hmem h)]
        simp

theorem setInsert_nodup (m : Nat) (s : List Nat) (h : s.Nodup) : (setInsert m s).Nodup := by
  rw [setInsert]
  by_cases hm : m ∈ s
  · rw [if_pos hm]; exact h
  · rw [if_neg hm]; exact List.nodup_cons.mpr ⟨hm, h⟩

theorem accWF_bump (k : String) (m : Nat) (acc : List (String × List Nat))
    (h : accWF acc) : accWF (bump k m acc) := by
  induction acc with
  | nil =>
    refine ⟨by simp [bump], ?_⟩
    intro kv hkv
    simp only [bump, List.mem_singleton] at hkv
    subst hkv
    simp
  | cons kv rest ih =>
    rcases h with ⟨hkeys, hsets⟩
    rw [List.map_cons, List.nodup_cons] at hkeys
    by_cases hk : kv.1 = k
    · refine ⟨?_, ?_⟩
      · simp only [bump, if_pos hk, List.map_cons]
        exact List.nodup_cons.mpr hkeys
      · intro kv2 hkv2
        simp only [bump, if_pos hk, List.mem_cons] at hkv2
        rcases hkv2 with rfl | hkv2
        · exact setInsert_nodup m kv.2 (hsets kv (List.mem_cons_self kv rest))
        · exact hsets kv2 (List.mem_cons_of_mem kv hkv2)
    · have ihr := ih ⟨hkeys.2, fun kv2 hkv2 => hsets kv2 (List.mem_cons_of_mem kv hkv2)⟩
      refine ⟨?_, ?_⟩
      · simp only [bump, if_neg hk, List.map_cons]
        rw [List.nodup_cons]
        refine ⟨?_, ihr.1⟩
        rw [keys_bump]
        by_cases hmem : k ∈ rest.map Prod.fst
        · rw [if_pos hmem]; exact hkeys.1
        · rw [if_neg hmem]
          intro hc
          rcases List.mem_append.mp hc with hc | hc
          · exact hkeys.1 hc
          · simp only [List.mem_singleton] at hc
            exact hk hc
      · intro kv2 hkv2
        simp only [bump, if_neg hk, List.mem_cons] at hkv2
        rcases hkv2 with rfl | hkv2
        · exact hsets kv2 (List.mem_cons_self kv2 rest)
        · exact ihr.2 kv2 hkv2

theorem pairsOf_cons (kv : String × List Nat) (rest : List (String × List Nat)) :
    pairsOf (kv :: rest) = kv.2.map (fun m => (kv.1, m)) ++ pairsOf rest := by
  simp [pairsOf]

theorem fst_of_mem_pairsOf (x : String × Nat) (acc : List (String × List Nat))
    (hx : x ∈ pairsOf acc) : x.1 ∈ acc.map Prod.fst := by
  induction acc with
  | nil => simp [pairsOf] at hx
  | cons kv rest ih =>
    rw [pairsOf_cons] at hx
    rcases List.mem_append.mp hx with hx | hx
    · rcases List.mem_map.mp hx with ⟨m, _, rfl⟩
      simp
    · simp only [List.map_cons, List.mem_cons]
      exact Or.inr (ih hx)

theorem nodup_pairsOf (acc : List (String × List Nat)) (h : accWF acc) :
    (pairsOf acc).Nodup := by
  induction acc with
  | nil => simp [pairsOf]
  | cons kv rest ih =>
    rcases h with ⟨hkeys, hsets⟩
    rw [List.map_cons, List.nodup_cons] at hkeys
    rw [pairsOf_cons]
    refine List.Nodup.append ?_
      (ih ⟨hkeys.2, fun kv2 h2 => hsets kv2 (List.mem_cons_of_mem kv h2)⟩) ?_
    · exact (hsets kv (List.mem_cons_self kv rest)).map (fun a b hab => by simpa using hab)
    · intro x hx1 hx2
      rcases List.mem_map.mp hx1 with ⟨m, _, rfl⟩
      have hfst := fst_of_mem_pairsOf _ rest hx2
      exact hkeys.1 (by simpa using hfst)

theorem sumLens_eq_length_pairsOf (acc : List (String × List Nat)) :
    sumLens acc = (pairsOf acc).length := by
  induction acc with
  | nil => rfl
  | cons kv rest ih =>
    simp only [sumLens, List.map_cons, List.sum_cons] at ih ⊢
    rw [pairsOf_cons, List.length_append, List.length_map, ih]

theorem mem_setInsert (x m : Nat) (s : List Nat) :
    x ∈ setInsert m s ↔ x = m ∨ x ∈ s := by
  rw [setInsert]
  by_cases hm : m ∈ s
  · rw [if_pos hm]
    constructor
    · exact fun h => Or.inr h
    · rintro (rfl | h)
      · exact hm
      · exact h
  · rw [if_neg hm]
    exact List.mem_cons

theorem mem_pairsOf_bump (x : String × Nat) (k : String) (m : Nat)
    (acc : List (String × List Nat)) :
    x ∈ pairsOf (bump k m acc) ↔ x = (k, m) ∨ x ∈ pairsOf acc := by
  obtain ⟨x1, x2⟩ := x
  induction acc with
  | nil => simp [bump, pairsOf]
  | cons kv rest ih =>
    obtain ⟨k0, s0⟩ := kv
    by_cases hk : k0 = k
    · subst hk
      have hb : bump k0 m ((k0, s0) :: rest) = (k0, setInsert m s0) :: rest := by
        simp [bump]
      rw [hb, pairsOf_cons, pairsOf_cons]
      simp only [List.mem_append, List.mem_map, mem_setInsert, Prod.mk.injEq]
      aesop
    · have hb : bump k m ((k0, s0) :: rest) = (k0, s0) :: bump k m rest := by
        simp [bump, hk]
      rw [hb, pairsOf_cons, pairsOf_cons]
      simp only [List.mem_append, List.mem_map, Prod.mk.injEq] at ih ⊢
      aesop

theorem toFinset_pairsOf_bump (k : String) (m : Nat) (acc : List (String × List Nat)) :
    (pairsOf (bump k m acc)).toFinset = insert (k, m) (pairsOf acc).toFinset := by
  ext x
  simp only [List.mem_toFinset, Finset.mem_insert, mem_pairsOf_bump]

theorem fold_bump_spec (pairs : List (String × Nat)) (acc : List (String × List Nat))
    (h : accWF acc) :
    accWF (pairs.foldl (fun m q => bump q.1 q.2 m) acc)
  ∧ (pairsOf (pairs.foldl (fun m q => bump q.1 q.2 m) acc)).toFinset
      = pairs.toFinset ∪ (pairsOf acc).toFinset := by
  induction pairs generalizing acc with
  | nil => exact ⟨h, by simp⟩
  | cons q rest ih =>
    rcases ih (bump q.1 q.2 acc) (accWF_bump q.1 q.2 acc h) with ⟨hwf, hfin⟩
    refine ⟨hwf, ?_⟩
    calc (pairsOf ((q :: rest).foldl (fun m p => bump p.1 p.2 m) acc)).toFinset
        = rest.toFinset ∪ (pairsOf (bump q.1 q.2 acc)).toFinset := hfin
      _ = rest.toFinset ∪ insert (q.1, q.2) (pairsOf acc).toFinset := by
          rw [toFinset_pairsOf_bump]
      _ = insert (q.1, q.2) (rest.toFinset ∪ (pairsOf acc).toFinset) := by
          rw [Finset.union_insert]
      _ = (q :: rest).toFinset ∪ (pairsOf acc).toFinset := by
          rw [List.toFinset_cons, Finset.insert_union, Prod.mk.eta]

/-- Summing the per-subject set sizes of the defaultdict(set) built from a stream
of (subject, minute) pairs counts exactly the distinct pairs of the stream. -/
theorem sumLens_fold_bump (pairs : List (String × Nat)) :
    sumLens (pairs.foldl (fun m q => bump q.1 q.2 m) []) = pairs.dedup.length := by
  have h := fold_bump_spec pairs [] ⟨List.nodup_nil, by intro kv hkv; cases hkv⟩
  rw [sumLens_eq_length_pairsOf,
    ← List.toFinset_card_of_nodup (nodup_pairsOf _ h.1), h.2]
  simp only [pairsOf, List.flatMap_nil, List.toFinset_nil, Finset.union_empty]
  exact List.card_toFinset pairs

/- ===== Person-minute scan path (statistics_service.py calculate_realtime_stats
   lines 96-124) and SQL-aggregated path (db_service.py get_statistics_aggregated
   lines 376-417) ===== -/

/-- The midnight test of both paths: hour and minute of the UTC day are both 0. -/
def is_midnight (ts : Nat) : Bool :=
  (ts / 60) % 1440 == 0

/-- One snapshot of the history stream: skip the pilot loop entirely on the 00:00
snapshot, add (subject, minute) into the per-subject sets for pilots and
controllers (lines 96-121). -/
def realtime_time_step (acc : List (String × List Nat) × List (String × List Nat))
    (s : Snapshot) : List (String × List Nat) × List (String × List Nat) :=
  let mk := s.ts / 60
  let pm := if is_midnight s.ts then acc.1
    else s.pilots.foldl
      (fun m p => if pilotVid p = "" then m else bump (pilotVid p) mk m) acc.1
  let am := s.atcs.foldl
    (fun m a => if atcVid a = "" then m else bump (atcVid a) mk m) acc.2
  (pm, am)

/-- flight_time_total and atc_time_total of calculate_realtime_stats: stream the
history, then sum the per-subject set sizes (lines 96-124). -/
def realtime_time_totals (history : List Snapshot) : Nat × Nat :=
  let acc := history.foldl realtime_time_step ([], [])
  (sumLens acc.1, sumLens acc.2)

/-- The (subject, minute) pairs the pilot loop feeds into the sets, in order:
non-midnight snapshots only, subjects with a non-empty key only. -/
def pilot_pair_stream (history : List Snapshot) : List (String × Nat) :=
  history.flatMap (fun s =>
    if is_midnight s.ts then []
    else (s.pilots.filter (fun p => !(pilotVid p == ""))).map
      (fun p => (pilotVid p, s.ts / 60)))

/-- The (subject, minute) pairs the controller loop feeds into the sets: every
snapshot, with no midnight exclusion. -/
def atc_pair_stream (history : List Snapshot) : List (String × Nat) :=
  history.flatMap (fun s =>
    (s.atcs.filter (fun a => !(atcVid a == ""))).map
      (fun a => (atcVid a, s.ts / 60)))

theorem foldl_guard_bump {α : Type} (key : α → String) (mk : Nat) (l : List α)
    (m0 : List (String × List Nat)) :
    l.foldl (fun m x => if key x = "" then m else bump (key x) mk m) m0
      = ((l.filter (fun x => !(key x == ""))).map (fun x => (key x, mk))).foldl
          (fun m q => bump q.1 q.2 m) m0 := by
  induction l generalizing m0 with
  | nil => rfl
  | cons x xs ih =>
    by_cases hx : key x = ""
    · rw [List.foldl_cons, if_pos hx, List.filter_cons]
      have hb : (!(key x == "")) = false := by simp [hx]
      rw [hb, if_neg Bool.false_ne_true]
      exact ih m0
    · rw [List.foldl_cons, if_neg hx, List.filter_cons]
      have hb : (!(key x == "")) = true := by simp [hx]
      rw [hb, if_pos rfl, List.map_cons, List.foldl_cons]
      exact ih _

theorem foldl_flatMap {α β γ : Type} (g : α → List β) (f : γ → β → γ) (l : List α)
    (init : γ) :
    (l.flatMap g).foldl f init = l.foldl (fun acc x => (g x).foldl f acc) init := by
  induction l generalizing init with
  | nil => rfl
  | cons x xs ih =>
    rw [List.flatMap_cons, List.foldl_append, List.foldl_cons, ih]

/-- The snapshot-by-snapshot fold of the scan path equals the plain bump fold over
the flattened pair streams. -/
theorem realtime_fold_eq (history : List Snapshot)
    (acc : List (String × List Nat) × List (String × List Nat)) :
    history.foldl realtime_time_step acc
      = ((pilot_pair_stream history).foldl (fun m q => bump q.1 q.2 m) acc.1,
         (atc_pair_stream history).foldl (fun m q => bump q.1 q.2 m) acc.2) := by
  induction history generalizing acc with
  | nil => rfl
  | cons s rest ih =>
    rw [List.foldl_cons, ih]
    have h1 : (realtime_time_step acc s).1
        = ((if is_midnight s.ts then []
            else (s.pilots.filter (fun p => !(pilotVid p == ""))).map
              (fun p => (pilotVid p, s.ts / 60))).foldl
            (fun m q => bump q.1 q.2 m) acc.1) := by
      by_cases hm : is_midnight s.ts
      · simp [realtime_time_step, hm]
      · simp only [realtime_time_step, if_neg hm]
        exact foldl_guard_bump pilotVid (s.ts / 60) s.pilots acc.1
    have h2 : (realtime_time_step acc s).2
        = (((s.atcs.filter (fun a => !(atcVid a == ""))).map
              (fun a => (atcVid a, s.ts / 60))).foldl
            (fun m q => bump q.1 q.2 m) acc.2) := by
      simp only [realtime_time_step]
      exact foldl_guard_bump atcVid (s.ts / 60) s.atcs acc.2
    have hp : pilot_pair_stream (s :: rest)
        = (if is_midnight s.ts then []
           else (s.pilots.filter (fun p => !(pilotVid p == ""))).map
             (fun p => (pilotVid p, s.ts / 60))) ++ pilot_pair_stream rest := by
      simp only [pilot_pair_stream, List.flatMap_cons]
    have ha : atc_pair_stream (s :: rest)
        = ((s.atcs.filter (fun a => !(atcVid a == ""))).map
             (fun a => (atcVid a, s.ts / 60))) ++ atc_pair_stream rest := by
      simp only [atc_pair_stream, List.flatMap_cons]
    rw [hp, ha, List.foldl_append, List.foldl_append, ← h1, ← h2]

/-- One joined row of snapshots_X JOIN pilots_X, as get_statistics_aggregated
reads it. -/
structure JPilotRow where
  ts : Nat
  user_id : String
  callsign : String
  departure : String
  arrival : String
  pob : Nat
  route : String
deriving DecidableEq, Repr

/-- One joined row of snapshots_X JOIN atcs_X. -/
structure JAtcRow where
  ts : Nat
  user_id : String
  callsign : String
deriving DecidableEq, Repr

/-- The SQL region disjunction (departure LIKE or arrival LIKE a prefix). -/
def row_in_country (prefixes : List String) (r : JPilotRow) : Bool :=
  startsWithAny prefixes r.departure || startsWithAny prefixes r.arrival

/-- The WHERE clause shared by the pilot aggregation queries: timestamp within the
window and the flight involves the region. -/
def pilot_window_rows (prefixes : List String) (start_ts : Nat)
    (rows : List JPilotRow) : List JPilotRow :=
  rows.filter (fun r => decide (start_ts ≤ r.ts) && row_in_country prefixes r)

/-- query_time_pilots (lines 376-388): COUNT(*) over SELECT DISTINCT
(user_id, minute) with the midnight snapshot excluded. -/
def agg_flight_time_min (prefixes : List String) (start_ts : Nat)
    (rows : List JPilotRow) : Nat :=
  ((((pilot_window_rows prefixes start_ts rows).filter
      (fun r => !(is_midnight r.ts))).map (fun r => (r.user_id, r.ts / 60))).dedup).length

/-- The WHERE clause of the controller aggregation: timestamp within the window
and the callsign matches a region prefix. -/
def atc_window_rows (prefixes : List String) (start_ts : Nat)
    (rows : List JAtcRow) : List JAtcRow :=
  rows.filter (fun r => decide (start_ts ≤ r.ts) && startsWithAny prefixes r.callsign)

/-- The total_minutes subquery of query_atc (lines 395-409): COUNT(*) over SELECT
DISTINCT (callsign, minute), with no midnight exclusion. -/
def agg_atc_time_min (prefixes : List String) (start_ts : Nat)
    (rows : List JAtcRow) : Nat :=
  (((atc_window_rows prefixes start_ts rows).map
      (fun r => (r.callsign, r.ts / 60))).dedup).length

theorem toFinset_map_list {α β : Type} [DecidableEq α] [DecidableEq β] (f : α → β)
    (l : List α) : (l.map f).toFinset = l.toFinset.image f := by
  induction l with
  | nil => simp
  | cons a t ih => simp [ih]

/-- Claim C5, amended: flight person-minutes are the count of distinct
(subject id, minute) pairs over region-involving pilot rows outside the exact
00:00 sample; controller person-minutes count distinct (callsign, minute) pairs
in the SQL path and distinct (user-id-or-callsign, minute) pairs in the scan
path - not distinct (subject id, minute) pairs - with no 00:00 exclusion in
either path; a subject present in k distinct minute buckets contributes exactly
k however many samples share a minute, and the 00:00 exclusion applies to
flight time only. The scan path sums per-subject set sizes and is proved equal
to the distinct-pair count of its pair stream; the SQL path counts distinct
pairs and is proved equal to the summed per-key distinct-minute counts. -/
theorem person_minute_accounting :
    (∀ history : List Snapshot,
        (realtime_time_totals history).1 = (pilot_pair_stream history).dedup.length
      ∧ (realtime_time_totals history).2 = (atc_pair_stream history).dedup.length)
  ∧ (∀ (u : String) (ms : List Nat),
        ((ms.map (fun m => (u, m))).dedup).length = ms.dedup.length)
  ∧ (∀ (prefixes : List String) (start_ts : Nat) (r : JPilotRow) (rows : List JPilotRow),
        is_midnight r.ts = true →
        agg_flight_time_min prefixes start_ts (r :: rows)
          = agg_flight_time_min prefixes start_ts rows)
  ∧ (∀ (prefixes : List String) (start_ts : Nat) (rows : List JPilotRow),
        agg_flight_time_min prefixes start_ts rows
          = sumLens ((((pilot_window_rows prefixes start_ts rows).filter
                (fun r => !(is_midnight r.ts))).map (fun r => (r.user_id, r.ts / 60))).foldl
              (fun m q => bump q.1 q.2 m) []))
  ∧ (∀ (prefixes : List String) (start_ts : Nat) (rows : List JAtcRow),
        agg_atc_time_min prefixes start_ts rows
          = sumLens (((atc_window_rows prefixes start_ts rows).map
                (fun r => (r.callsign, r.ts / 60))).foldl (fun m q => bump q.1 q.2 m) []))
  ∧ (agg_flight_time_min ["SC"] 0 [⟨0, "9", "X", "SCEL", "EGLL", 1, ""⟩] = 0)
  ∧ (agg_atc_time_min ["SC"] 0 [⟨0, "9", "SCEL_TWR"⟩] = 1)
  ∧ (∀ (history : List Snapshot) (s : Snapshot), is_midnight s.ts = true →
        pilot_pair_stream (s :: history) = pilot_pair_stream history)
  ∧ (agg_flight_time_min ["SC"] 60
        [⟨60, "9", "X", "SCEL", "EGLL", 1, ""⟩, ⟨80, "9", "X", "SCEL", "EGLL", 1, ""⟩,
         ⟨120, "9", "X", "SCEL", "EGLL", 1, ""⟩] = 2) := by
  refine ⟨?_, ?_, ?_, ?_, ?_, ?_, ?_, ?_, ?_⟩
  · intro history
    have h := realtime_fold_eq history ([], [])
    constructor
    · simp only [realtime_time_totals, h]
      exact sumLens_fold_bump (pilot_pair_stream history)
    · simp only [realtime_time_totals, h]
      exact sumLens_fold_bump (atc_pair_stream history)
  · intro u ms
    rw [← List.card_toFinset, ← List.card_toFinset, toFinset_map_list]
    exact Finset.card_image_of_injective _ (fun a b hab => by simpa using hab)
  · intro prefixes start_ts r rows hmid
    simp only [agg_flight_time_min, pilot_window_rows, List.filter_cons]
    by_cases hw : (decide (start_ts ≤ r.ts) && row_in_country prefixes r) = true
    · rw [if_pos hw, List.filter_cons]
      have hm2 : (!(is_midnight r.ts)) = false := by simp [hmid]
      rw [hm2, if_neg Bool.false_ne_true]
    · rw [if_neg hw]
  · intro prefixes start_ts rows
    exact (sumLens_fold_bump _).symm
  · intro prefixes start_ts rows
    exact (sumLens_fold_bump _).symm
  · decide
  · decide
  · intro history s hmid
    simp [pilot_pair_stream, hmid]
  · decide

/-- Witness for person_minute_accounting: the sample at second 0 is the midnight
sample, and prepending that region-involving pilot row leaves the flight-minute
aggregate unchanged. -/
theorem person_minute_accounting_witness :
    (is_midnight 0 = true)
  ∧ (agg_flight_time_min ["SC"] 0 [⟨0, "9", "X", "SCEL", "EGLL", 1, ""⟩]
      = agg_flight_time_min ["SC"] 0 []) :=
  ⟨rfl, person_minute_accounting.2.2.1 ["SC"] 0 ⟨0, "9", "X", "SCEL", "EGLL", 1, ""⟩ [] rfl⟩

/- ===== Statistics result and the live composition path
   (models/statistics.py, statistics_service.py compose_realtime_stats 140-194) ===== -/

/-- The Statistics result entity (models/statistics.py), restricted to the fields
the verified paths construct; optional fields not read by any claim are omitted. -/
structure Statistics where
  total_flights : Nat
  domestic_flights : Nat
  intl_departures : Nat
  intl_arrivals : Nat
  unique_pilots : Nat
  people_on_board_total : Nat
  flight_time_total_min : Nat
  atc_time_total_min : Nat
  atc_count : Nat
  active_flights : List (String × String × String × String × Nat × String)
deriving DecidableEq, Repr

/-- The two entries compose_realtime_stats reads from the aggregated-statistics
dict (with .get defaulting handled upstream). -/
structure DbStats where
  flight_time_total_min : Nat
  atc_time_total_min : Nat
deriving DecidableEq, Repr

/-- The live-path flight key (callsign, dep, arr, route, pob, aircraft) of
compose_realtime_stats line 169. -/
def flight_key (p : Pilot) : String × String × String × String × Nat × String :=
  (p.callsign, p.flight_plan.departure_id, p.flight_plan.arrival_id,
    p.flight_plan.route, p.flight_plan.people_on_board, p.flight_plan.aircraft_icao)

/-- Loop state of compose_realtime_stats lines 150-180. -/
structure ComposeAcc where
  active : List (String × String × String × String × Nat × String)
  seen : List (String × String × String × String × Nat × String)
  pob : Nat
  domestic : Nat
  intl_dep : Nat
  intl_arr : Nat
deriving DecidableEq, Repr

/-- One pilot of the compose loop: add its pob, and when its flight key is new
and the flight involves the region, record it and categorize it with the
if/elif/elif chain. -/
def compose_step (prefixes : List String) (acc : ComposeAcc) (p : Pilot) : ComposeAcc :=
  let acc2 := { acc with pob := acc.pob + p.flight_plan.people_on_board }
  if flight_key p ∉ acc2.seen ∧ involves_country prefixes p = true then
    { acc2 with
      seen := flight_key p :: acc2.seen
      active := acc2.active ++ [flight_key p]
      domestic := acc2.domestic + (if is_domestic prefixes p = true then 1 else 0)
      intl_dep := acc2.intl_dep +
        (if is_domestic prefixes p = false ∧ is_international_departure prefixes p = true
          then 1 else 0)
      intl_arr := acc2.intl_arr +
        (if is_domestic prefixes p = false ∧ is_international_departure prefixes p = false
            ∧ is_international_arrival prefixes p = true then 1 else 0) }
  else acc2

/-- StatisticsService.compose_realtime_stats (lines 140-194): unique_pilots and
total_flights are both the size of the seen flight-key set. -/
def compose_realtime_stats (db_stats : DbStats) (current_pilots : List Pilot)
    (current_atcs : List ATC) (prefixes : List String) : Statistics :=
  let acc := current_pilots.foldl (compose_step prefixes)
    { active := [], seen := [], pob := 0, domestic := 0, intl_dep := 0, intl_arr := 0 }
  { total_flights := acc.seen.length
    domestic_flights := acc.domestic
    intl_departures := acc.intl_dep
    intl_arrivals := acc.intl_arr
    unique_pilots := acc.seen.length
    people_on_board_total := acc.pob
    flight_time_total_min := db_stats.flight_time_total_min
    atc_time_total_min := db_stats.atc_time_total_min
    atc_count := current_atcs.length
    active_flights := acc.active }

/-- COUNT(DISTINCT p.user_id) of query_flights (db_service.py line 342): distinct
non-NULL user ids over the windowed region rows. -/
def agg_unique_pilots (prefixes : List String) (start_ts : Nat)
    (rows : List JPilotRow) : Nat :=
  (((pilot_window_rows prefixes start_ts rows).filterMap
      (fun r => if r.user_id = "" then none else some r.user_id)).dedup).length

/- ===== Generic insert-if-new set fold (Python set.add on tuples) ===== -/

/-- Python set.add for an arbitrary element type. -/
def addNew {α : Type} [DecidableEq α] (x : α) (s : List α) : List α :=
  if x ∈ s then s else x :: s

theorem fold_addNew_spec {α : Type} [DecidableEq α] (l : List α) (s : List α)
    (hs : s.Nodup) :
    (l.foldl (fun acc x => addNew x acc) s).Nodup
  ∧ (l.foldl (fun acc x => addNew x acc) s).toFinset = l.toFinset ∪ s.toFinset := by
  induction l generalizing s with
  | nil => exact ⟨hs, by simp⟩
  | cons x xs ih =>
    have hnodup : (addNew x s).Nodup := by
      rw [addNew]
      by_cases hx : x ∈ s
      · rw [if_pos hx]; exact hs
      · rw [if_neg hx]; exact List.nodup_cons.mpr ⟨hx, hs⟩
    have htf : (addNew x s).toFinset = insert x s.toFinset := by
      rw [addNew]
      by_cases hx : x ∈ s
      · rw [if_pos hx]
        exact (Finset.insert_eq_self.mpr (List.mem_toFinset.mpr hx)).symm
      · rw [if_neg hx, List.toFinset_cons]
    rcases ih (addNew x s) hnodup with ⟨h1, h2⟩
    refine ⟨h1, ?_⟩
    calc ((x :: xs).foldl (fun acc y => addNew y acc) s).toFinset
        = xs.toFinset ∪ (addNew x s).toFinset := h2
      _ = xs.toFinset ∪ insert x s.toFinset := by rw [htf]
      _ = insert x (xs.toFinset ∪ s.toFinset) := by rw [Finset.union_insert]
      _ = (x :: xs).toFinset ∪ s.toFinset := by rw [List.toFinset_cons, Finset.insert_union]

theorem length_fold_addNew {α : Type} [DecidableEq α] (l : List α) :
    (l.foldl (fun acc x => addNew x acc) []).length = l.dedup.length := by
  have h := fold_addNew_spec l [] List.nodup_nil
  rw [← List.toFinset_card_of_nodup h.1, h.2]
  simp only [List.toFinset_nil, Finset.union_empty]
  exact List.card_toFinset l

/-- The seen-set component of the compose loop is the set fold of the flight keys
of the region-involving pilots. -/
theorem compose_seen (prefixes : List String) (ps : List Pilot) (acc : ComposeAcc) :
    (ps.foldl (compose_step prefixes) acc).seen
      = ((ps.filter (fun p => involves_country prefixes p)).map flight_key).foldl
          (fun s k => addNew k s) acc.seen := by
  induction ps generalizing acc with
  | nil => rfl
  | cons p rest ih =>
    have hstep : (compose_step prefixes acc p).seen
        = if involves_country prefixes p = true then addNew (flight_key p) acc.seen
          else acc.seen := by
      rw [compose_step]
      by_cases hinv : involves_country prefixes p = true
      · rw [if_pos hinv, addNew]
        by_cases hmem : flight_key p ∈ acc.seen
        · rw [if_pos hmem, if_neg (by intro hc; exact hc.1 hmem)]
        · rw [if_neg hmem, if_pos ⟨hmem, hinv⟩]
      · rw [if_neg hinv, if_neg (by intro hc; exact hinv hc.2)]
    rw [List.foldl_cons, ih, hstep, List.filter_cons]
    by_cases hinv : involves_country prefixes p = true
    · rw [if_pos hinv, hinv, if_pos rfl, List.map_cons, List.foldl_cons]
    · have hfalse : involves_country prefixes p = false := by
        cases h : involves_country prefixes p
        · rfl
        · exact absurd h hinv
      rw [if_neg hinv, hfalse, if_neg Bool.false_ne_true]

/-- Claim C3, counterexample: two current pilots with the same subject id but
different callsigns over one region flight plan; the live path reports 2 unique
pilots while the number of distinct subject ids is 1, so the live path does not
count distinct subject ids. -/
theorem unique_participants_counterexample :
    ((compose_realtime_stats ⟨0, 0⟩
        [⟨"1", "AAA", ⟨"SCEL", "EGLL", 0, "R", "A320"⟩⟩,
         ⟨"1", "BBB", ⟨"SCEL", "EGLL", 0, "R", "A320"⟩⟩] [] ["SC"]).unique_pilots = 2)
  ∧ ((([⟨"1", "AAA", ⟨"SCEL", "EGLL", 0, "R", "A320"⟩⟩,
        ⟨"1", "BBB", ⟨"SCEL", "EGLL", 0, "R", "A320"⟩⟩] : List Pilot).map
        (fun p => p.user_id)).dedup.length = 1)
  ∧ (((compose_realtime_stats ⟨0, 0⟩
        [⟨"1", "AAA", ⟨"SCEL", "EGLL", 0, "R", "A320"⟩⟩,
         ⟨"1", "BBB", ⟨"SCEL", "EGLL", 0, "R", "A320"⟩⟩] [] ["SC"]).unique_pilots
      = (([⟨"1", "AAA", ⟨"SCEL", "EGLL", 0, "R", "A320"⟩⟩,
           ⟨"1", "BBB", ⟨"SCEL", "EGLL", 0, "R", "A320"⟩⟩] : List Pilot).map
          (fun p => p.user_id)).dedup.length) ↔ False) := by
  refine ⟨by decide, by decide, by decide⟩

theorem filterMap_userid (l : List JPilotRow) (h : ∀ r ∈ l, r.user_id ≠ "") :
    l.filterMap (fun r => if r.user_id = "" then none else some r.user_id)
      = l.map (fun r => r.user_id) := by
  induction l with
  | nil => rfl
  | cons r rest ih =>
    rw [List.filterMap_cons, if_neg (h r (List.mem_cons_self r rest)), List.map_cons,
      ih (fun r2 h2 => h r2 (List.mem_cons_of_mem r h2))]

/-- Claim C3, amended: in the window-aggregated path the unique-participant count
is the number of distinct (non-NULL) subject ids among region-involving pilot
rows in the window; in the live snapshot path it is instead the number of
distinct flight keys (callsign, dep, arr, route, pob, aircraft) among
region-involving current pilots, and therefore always coincides with the
reported total flights, not with the number of distinct subject ids. -/
theorem unique_participants_amended :
    (∀ (prefixes : List String) (start_ts : Nat) (rows : List JPilotRow),
        (∀ r ∈ pilot_window_rows prefixes start_ts rows, r.user_id ≠ "") →
        agg_unique_pilots prefixes start_ts rows
          = (((pilot_window_rows prefixes start_ts rows).map
              (fun r => r.user_id)).dedup).length)
  ∧ (∀ (db : DbStats) (pilots : List Pilot) (atcs : List ATC) (prefixes : List String),
        (compose_realtime_stats db pilots atcs prefixes).unique_pilots
          = (((pilots.filter (fun p => involves_country prefixes p)).map
              flight_key).dedup).length)
  ∧ (∀ (db : DbStats) (pilots : List Pilot) (atcs : List ATC) (prefixes : List String),
        (compose_realtime_stats db pilots atcs prefixes).unique_pilots
          = (compose_realtime_stats db pilots atcs prefixes).total_flights) := by
  refine ⟨?_, ?_, ?_⟩
  · intro prefixes start_ts rows h
    rw [agg_unique_pilots, filterMap_userid _ h]
  · intro db pilots atcs prefixes
    have hseen := compose_seen prefixes pilots
      { active := [], seen := [], pob := 0, domestic := 0, intl_dep := 0, intl_arr := 0 }
    simp only [compose_realtime_stats, hseen]
    exact length_fold_addNew _
  · intro db pilots atcs prefixes
    rfl

/-- Witness for unique_participants_amended at a single stored row with a
non-empty user id. -/
theorem unique_participants_amended_witness :
    agg_unique_pilots ["SC"] 0 [⟨60, "9", "X", "SCEL", "EGLL", 1, "R"⟩]
      = (((pilot_window_rows ["SC"] 0 [⟨60, "9", "X", "SCEL", "EGLL", 1, "R"⟩]).map
          (fun r => r.user_id)).dedup).length :=
  unique_participants_amended.1 ["SC"] 0 [⟨60, "9", "X", "SCEL", "EGLL", 1, "R"⟩] (by decide)

/- ===== Scan-and-replay historical statistics
   (statistics_service.py calculate_historical_stats, lines 196-255) ===== -/

/-- The historical flight key (vid, dep, arr, route) of line 223. -/
def hist_flight_key (vid : String) (p : Pilot) : String × String × String × String :=
  (vid, p.flight_plan.departure_id, p.flight_plan.arrival_id, p.flight_plan.route)

/-- Loop state of calculate_historical_stats lines 198-204. -/
structure HistAcc where
  pilot_minutes : List (String × List Nat)
  atc_minutes : List (String × List Nat)
  unique_flights : List (String × String × String × String)
  total_pob : Nat
  domestic : Nat
  intl_dep : Nat
  intl_arr : Nat
deriving DecidableEq, Repr

/-- One pilot of the historical scan (lines 210-234): record the person-minute,
then, when the flight key is new and the flight involves the region, add the
seat count of THIS sample (the first observation) and categorize. -/
def hist_pilot_step (prefixes : List String) (mk : Nat) (acc : HistAcc) (p : Pilot) :
    HistAcc :=
  let vid := pilotVid p
  if vid = "" then acc
  else
    let acc2 := { acc with pilot_minutes := bump vid mk acc.pilot_minutes }
    if hist_flight_key vid p ∉ acc2.unique_flights
        ∧ involves_country prefixes p = true then
      { acc2 with
        unique_flights := hist_flight_key vid p :: acc2.unique_flights
        total_pob := acc2.total_pob + p.flight_plan.people_on_board
        domestic := acc2.domestic + (if is_domestic prefixes p = true then 1 else 0)
        intl_dep := acc2.intl_dep +
          (if is_domestic prefixes p = false ∧ is_international_departure prefixes p = true
            then 1 else 0)
        intl_arr := acc2.intl_arr +
          (if is_domestic prefixes p = false ∧ is_international_departure prefixes p = false
              ∧ is_international_arrival prefixes p = true then 1 else 0) }
    else acc2

/-- One controller of the historical scan (lines 237-240). -/
def hist_atc_step (mk : Nat) (acc : HistAcc) (a : ATC) : HistAcc :=
  let vid := atcVid a
  if vid = "" then acc
  else { acc with atc_minutes := bump vid mk acc.atc_minutes }

/-- Initial loop state. -/
def hist_init : HistAcc :=
  { pilot_minutes := [], atc_minutes := [], unique_flights := [], total_pob := 0,
    domestic := 0, intl_dep := 0, intl_arr := 0 }

/-- StatisticsService.calculate_historical_stats (lines 196-255). -/
def calculate_historical_stats (prefixes : List String) (snapshots : List Snapshot) :
    Statistics :=
  let acc := snapshots.foldl (fun acc s =>
    let mk := s.ts / 60
    let acc2 := s.pilots.foldl (hist_pilot_step prefixes mk) acc
    s.atcs.foldl (hist_atc_step mk) acc2) hist_init
  { total_flights := acc.unique_flights.length
    domestic_flights := acc.domestic
    intl_departures := acc.intl_dep
    intl_arrivals := acc.intl_arr
    unique_pilots := acc.pilot_minutes.length
    people_on_board_total := acc.total_pob
    flight_time_total_min := sumLens acc.pilot_minutes
    atc_time_total_min := sumLens acc.atc_minutes
    atc_count := acc.atc_minutes.length
    active_flights := [] }

/-- The SQL grouping key of query_pob (db_service.py line 362):
(user_id, departure, arrival, route). -/
def flight_tuple (r : JPilotRow) : String × String × String × String :=
  (r.user_id, r.departure, r.arrival, r.route)

/-- query_pob (db_service.py lines 354-367): SUM over distinct flight tuples of
MAX(pob) within the group. -/
def agg_people_on_board (prefixes : List String) (start_ts : Nat)
    (rows : List JPilotRow) : Nat :=
  let inwin := pilot_window_rows prefixes start_ts rows
  (((inwin.map flight_tuple).dedup).map
      (fun t => ((inwin.filter (fun r => flight_tuple r == t)).map
          (fun r => r.pob)).foldl Nat.max 0)).sum

/-- Claim C4, counterexample: one flight tuple observed with seat counts
[3, 5, 4]; the SQL-aggregated path contributes 5 (the max), but the
scan-and-replay path contributes 3 (the first observation), so the claim fails
on the scan path. -/
theorem seat_count_counterexample :
    ((calculate_historical_stats ["SC"]
        [⟨60, [⟨"9", "X", ⟨"SCEL", "EGLL", 3, "R", "A320"⟩⟩], []⟩,
         ⟨120, [⟨"9", "X", ⟨"SCEL", "EGLL", 5, "R", "A320"⟩⟩], []⟩,
         ⟨180, [⟨"9", "X", ⟨"SCEL", "EGLL", 4, "R", "A320"⟩⟩], []⟩]).people_on_board_total
      = 3)
  ∧ (agg_people_on_board ["SC"] 0
        [⟨60, "9", "X", "SCEL", "EGLL", 3, "R"⟩, ⟨120, "9", "X", "SCEL", "EGLL", 5, "R"⟩,
         ⟨180, "9", "X", "SCEL", "EGLL", 4, "R"⟩] = 5)
  ∧ (((calculate_historical_stats ["SC"]
        [⟨60, [⟨"9", "X", ⟨"SCEL", "EGLL", 3, "R", "A320"⟩⟩], []⟩,
         ⟨120, [⟨"9", "X", ⟨"SCEL", "EGLL", 5, "R", "A320"⟩⟩], []⟩,
         ⟨180, [⟨"9", "X", ⟨"SCEL", "EGLL", 4, "R", "A320"⟩⟩], []⟩]).people_on_board_total
      = 5) ↔ False) := by
  refine ⟨by decide, by decide, by decide⟩

/-- Claim C4, amended: the SQL-aggregated path sums the maximum seat count per
distinct flight tuple ([3,5,4] contributes 5); the scan-and-replay path adds a
tuple's seat count only at its first observation and ignores later samples of
the same tuple ([3,5,4] contributes 3). -/
theorem seat_count_amended :
    (∀ (prefixes : List String) (mk : Nat) (acc : HistAcc) (p : Pilot),
        hist_flight_key (pilotVid p) p ∈ acc.unique_flights →
        (hist_pilot_step prefixes mk acc p).total_pob = acc.total_pob)
  ∧ (∀ (prefixes : List String) (mk : Nat) (acc : HistAcc) (p : Pilot),
        pilotVid p ≠ "" →
        hist_flight_key (pilotVid p) p ∉ acc.unique_flights →
        involves_country prefixes p = true →
        (hist_pilot_step prefixes mk acc p).total_pob
          = acc.total_pob + p.flight_plan.people_on_board)
  ∧ (agg_people_on_board ["SC"] 0
        [⟨60, "9", "X", "SCEL", "EGLL", 3, "R"⟩, ⟨120, "9", "X", "SCEL", "EGLL", 5, "R"⟩,
         ⟨180, "9", "X", "SCEL", "EGLL", 4, "R"⟩] = 5)
  ∧ (([(3 : Nat), 5, 4].foldl Nat.max 0) = 5) := by
  refine ⟨?_, ?_, by decide, by decide⟩
  · intro prefixes mk acc p hmem
    rw [hist_pilot_step]
    by_cases hvid : pilotVid p = ""
    · rw [if_pos hvid]
    · rw [if_neg hvid, if_neg (by intro hc; exact hc.1 hmem)]
  · intro prefixes mk acc p hvid hnew hinv
    rw [hist_pilot_step, if_neg hvid, if_pos ⟨hnew, hinv⟩]

/-- Witness for seat_count_amended: the first observation of a fresh flight tuple
adds its seat count to the running total. -/
theorem seat_count_amended_witness :
    (hist_pilot_step ["SC"] 1 hist_init ⟨"9", "X", ⟨"SCEL", "EGLL", 3, "R", "A320"⟩⟩).total_pob
      = 3 :=
  seat_count_amended.2.1 ["SC"] 1 hist_init ⟨"9", "X", ⟨"SCEL", "EGLL", 3, "R", "A320"⟩⟩
    (by decide) (by decide) (by decide)

/- ===== Leaderboards (spec-modelled) ===== -/

/-- Modelled from the spec: DatabaseService.get_top_pilots and get_top_atcs are
called by ConsolidationService.consolidate_historical (consolidation_service.py
lines 57-78) but their definitions are not present under the repository sources;
per the spec, top-N queries rank subjects by accumulated person-minutes within
the window, descending, with ties broken by subject id ascending for
determinism, and default N = 3. An entry is (subject id, person-minutes). -/
def leaderboard_rank (a b : Nat × Nat) : Prop :=
  b.2 < a.2 ∨ (a.2 = b.2 ∧ a.1 ≤ b.1)

instance : DecidableRel leaderboard_rank := fun a b => by
  unfold leaderboard_rank
  infer_instance

instance : IsTotal (Nat × Nat) leaderboard_rank :=
  ⟨by
    intro a b
    unfold leaderboard_rank
    omega⟩

instance : IsTrans (Nat × Nat) leaderboard_rank :=
  ⟨by
    intro a b c hab hbc
    unfold leaderboard_rank at hab hbc ⊢
    omega⟩

/-- Modelled from the spec: the top-N selection sorts the per-subject totals by
the leaderboard order and keeps the first N. -/
def get_top_subjects (totals : List (Nat × Nat)) (limit : Nat) : List (Nat × Nat) :=
  (List.insertionSort leaderboard_rank totals).take limit

/-- Modelled from the spec: accumulated person-minutes per subject from the
(subject, minute) pairs of the window, then the top 3. -/
def subject_minute_totals (pairs : List (Nat × Nat)) : List (Nat × Nat) :=
  ((pairs.map Prod.fst).dedup).map
    (fun u => (u, (((pairs.filter (fun q => q.1 == u)).map Prod.snd).dedup).length))

/-- Modelled from the spec: get_top_pilots with the default limit of 3. -/
def get_top_pilots (pairs : List (Nat × Nat)) : List (Nat × Nat) :=
  get_top_subjects (subject_minute_totals pairs) 3

/-- Modelled from the spec: get_top_atcs with the default limit of 3. -/
def get_top_atcs (pairs : List (Nat × Nat)) : List (Nat × Nat) :=
  get_top_subjects (subject_minute_totals pairs) 3

/-- Claim C2 (spec-modelled): the leaderboard holds at most N entries (N = 3 by
default), is sorted by person-minutes descending with ties broken by subject id
ascending, draws its entries from the per-subject totals, dominates every
entry it cut off, and is empty when there is no data. -/
theorem leaderboard_ranking :
    (∀ (totals : List (Nat × Nat)) (limit : Nat),
        (get_top_subjects totals limit).length = min limit totals.length)
  ∧ (∀ (totals : List (Nat × Nat)) (limit : Nat),
        List.Sorted leaderboard_rank (get_top_subjects totals limit))
  ∧ (∀ (totals : List (Nat × Nat)) (limit : Nat),
        ∀ x ∈ get_top_subjects totals limit, x ∈ totals)
  ∧ (∀ (totals : List (Nat × Nat)) (limit : Nat),
        ∀ x ∈ get_top_subjects totals limit,
          ∀ y ∈ (List.insertionSort leaderboard_rank totals).drop limit,
            leaderboard_rank x y)
  ∧ (∀ pairs : List (Nat × Nat), (get_top_pilots pairs).length ≤ 3)
  ∧ (∀ pairs : List (Nat × Nat), (get_top_atcs pairs).length ≤ 3)
  ∧ (get_top_pilots [] = [] ∧ get_top_atcs [] = [])
  ∧ (∀ a b : Nat × Nat, leaderboard_rank a b ↔ (b.2 < a.2 ∨ (a.2 = b.2 ∧ a.1 ≤ b.1)))
  ∧ (get_top_subjects [(7, 5), (3, 5), (9, 2), (1, 9)] 3 = [(1, 9), (3, 5), (7, 5)]) := by
  have hsorted : ∀ (totals : List (Nat × Nat)),
      List.Sorted leaderboard_rank (List.insertionSort leaderboard_rank totals) :=
    fun totals => List.sorted_insertionSort leaderboard_rank totals
  refine ⟨?_, ?_, ?_, ?_, ?_, ?_, ⟨rfl, rfl⟩, fun a b => Iff.rfl, by decide⟩
  · intro totals limit
    rw [get_top_subjects, List.length_take, List.length_insertionSort]
  · intro totals limit
    exact List.Pairwise.sublist (List.take_sublist limit _) (hsorted totals)
  · intro totals limit x hx
    have hx2 : x ∈ List.insertionSort leaderboard_rank totals :=
      (List.take_sublist limit _).subset hx
    exact (List.perm_insertionSort leaderboard_rank totals).subset hx2
  · intro totals limit x hx y hy
    have hp : List.Pairwise leaderboard_rank
        ((List.insertionSort leaderboard_rank totals).take limit
          ++ (List.insertionSort leaderboard_rank totals).drop limit) := by
      rw [List.take_append_drop]
      exact hsorted totals
    exact (List.pairwise_append.mp hp).2.2 x hx y hy
  · intro pairs
    rw [get_top_pilots]
    have h := List.length_take_le 3 (List.insertionSort leaderboard_rank
      (subject_minute_totals pairs))
    exact h
  · intro pairs
    rw [get_top_atcs]
    exact List.length_take_le 3 _

/-- Witness for leaderboard_ranking: the top entry of the concrete leaderboard
outranks the entry the cut excluded. -/
theorem leaderboard_ranking_witness :
    leaderboard_rank (1, 9) (9, 2) :=
  leaderboard_ranking.2.2.2.1 [(7, 5), (3, 5), (9, 2), (1, 9)] 3 (1, 9) (by decide)
    (9, 2) (by decide)

/-- Claim C5, counterexample: one subject (user id "9") staffing two in-scope
positions (SCEL_TWR and SCEL_APP) in the same minute. The SQL controller
subquery counts distinct (callsign, minute) pairs and reports 2, while the
number of distinct (subject id, minute) pairs over the same in-scope rows is 1,
and the scan path keyed by user-id-or-callsign also reports 1; so controller
person-minutes in the SQL path are not the count of distinct
(subject id, minute) pairs, and the two paths disagree on this input. -/
theorem atc_subject_minute_counterexample :
    (agg_atc_time_min ["SC"] 0 [⟨60, "9", "SCEL_TWR"⟩, ⟨60, "9", "SCEL_APP"⟩] = 2)
  ∧ (((atc_window_rows ["SC"] 0 [⟨60, "9", "SCEL_TWR"⟩, ⟨60, "9", "SCEL_APP"⟩]).map
        (fun r => (r.user_id, r.ts / 60))).dedup.length = 1)
  ∧ ((realtime_time_totals [⟨60, [], [⟨"9", "SCEL_TWR"⟩, ⟨"9", "SCEL_APP"⟩]⟩]).2 = 1)
  ∧ ((agg_atc_time_min ["SC"] 0 [⟨60, "9", "SCEL_TWR"⟩, ⟨60, "9", "SCEL_APP"⟩]
      = ((atc_window_rows ["SC"] 0 [⟨60, "9", "SCEL_TWR"⟩, ⟨60, "9", "SCEL_APP"⟩]).map
          (fun r => (r.user_id, r.ts / 60))).dedup.length) ↔ False) := by
  refine ⟨by decide, by decide, by decide, by decide⟩
